import Mathlib

/-!
Verification of `src/ercot_scraper/ercot_scraper.py`.

The Python program is shallowly embedded below:
pure helpers become Lean functions, exceptions become `Except` values,
filesystem effects become explicit state passing on an `FS` record, and
the external collaborators (Selenium renderer, HTTP transport, zip
decoder, CSV reader) become oracle fields of a `ScrapeEnv` record whose
outcomes are quantified over in the theorems.
-/

/- ### Timestamps (`datetime.datetime`) -/

/-- A calendar timestamp as produced by `datetime.datetime.strptime`
(microseconds are always zero for the format used and are omitted). -/
@[ext] structure DateTime where
  year : Nat
  month : Nat
  day : Nat
  hour : Nat
  minute : Nat
  second : Nat
deriving DecidableEq, Repr

/-- `datetime.datetime.min` = 0001-01-01 00:00:00. -/
def dtMin : DateTime := ⟨1, 1, 1, 0, 0, 0⟩

/-- Python `datetime` comparison: lexicographic on the fields. -/
def dtLt (a b : DateTime) : Prop :=
  a.year < b.year ∨ (a.year = b.year ∧ (a.month < b.month ∨ (a.month = b.month ∧
    (a.day < b.day ∨ (a.day = b.day ∧ (a.hour < b.hour ∨ (a.hour = b.hour ∧
      (a.minute < b.minute ∨ (a.minute = b.minute ∧ a.second < b.second)))))))))

instance (a b : DateTime) : Decidable (dtLt a b) := by
  unfold dtLt; infer_instance

/-- The Boolean test `posted_dt > most_recent_posted` of the source. -/
def dtGtB (a b : DateTime) : Bool := decide (dtLt b a)

/- ### `datetime.datetime.strptime(s, "%m/%d/%Y %I:%M:%S %p")` -/

/-- Split a character list at every occurrence of `c` (CPython field
splitting for the fixed format, which has single-character literals
between directives). -/
def splitOnCharAux (c : Char) : List Char → List Char → List (List Char)
  | acc, [] => [acc.reverse]
  | acc, x :: xs =>
    if x = c then acc.reverse :: splitOnCharAux c [] xs
    else splitOnCharAux c (x :: acc) xs

def splitOnChar (c : Char) (l : List Char) : List (List Char) :=
  splitOnCharAux c [] l

/-- Numeric value of a digit string. -/
def digitsVal (l : List Char) : Nat :=
  l.foldl (fun n c => n * 10 + (c.toNat - ('0').toNat)) 0

/-- One numeric `strptime` directive: between `minLen` and `maxLen`
digits whose value lies in `[lo, hi]`. -/
def parseField (l : List Char) (minLen maxLen lo hi : Nat) : Option Nat :=
  if l.length < minLen ∨ maxLen < l.length ∨ ¬ (l.all Char.isDigit) then none
  else
    let v := digitsVal l
    if lo ≤ v ∧ v ≤ hi then some v else none

def isLeapYear (y : Nat) : Bool :=
  (y % 4 == 0 && y % 100 != 0) || y % 400 == 0

/-- Day-of-month bound enforced by the `datetime` constructor. -/
def daysInMonth (y m : Nat) : Nat :=
  if m = 2 then (if isLeapYear y then 29 else 28)
  else if m = 4 ∨ m = 6 ∨ m = 9 ∨ m = 11 then 30
  else 31

/-- `%p`: `AM`/`PM`, case-insensitively; `true` means PM. -/
def parseAmPm (l : List Char) : Option Bool :=
  let u := l.map Char.toUpper
  if u = ['A', 'M'] then some false
  else if u = ['P', 'M'] then some true
  else none

/-- `datetime.datetime.strptime(s, "%m/%d/%Y %I:%M:%S %p")`, returning
`none` where CPython raises `ValueError` (either from `_strptime`
matching or from the `datetime` constructor's day/second validation). -/
def strptime_mdy_hms (s : String) : Option DateTime :=
  match splitOnChar ' ' s.data with
  | [dPart, tPart, pPart] =>
    match splitOnChar '/' dPart, splitOnChar ':' tPart, parseAmPm pPart with
    | [ms, ds, ys], [hs, mis, ss], some pm =>
      match parseField ms 1 2 1 12, parseField ys 4 4 1 9999, parseField hs 1 2 1 12,
            parseField mis 1 2 0 59, parseField ss 1 2 0 59 with
      | some mo, some y, some h12, some mi, some sec =>
        match parseField ds 1 2 1 (daysInMonth y mo) with
        | some d =>
          let h := if pm then (if h12 = 12 then 12 else h12 + 12)
                   else (if h12 = 12 then 0 else h12)
          some ⟨y, mo, d, h, mi, sec⟩
        | none => none
      | _, _, _, _, _ => none
    | _, _, _ => none
  | _ => none

/- ### Listing rows and `get_most_recent_link` -/

/-- Error taxonomy of the program: its three custom exception classes
plus a catch-all for every other Python exception. -/
inductive PyErr where
  | dataFetching (msg : String)
  | dataProcessing (msg : String)
  | missingDependency (msg : String)
  | other (msg : String)
deriving DecidableEq, Repr

/-- One `<tr>` of the report table, as the program observes it:
the stripped texts of its `<td>` cells and, when present, the `href`
of its first anchor (`none` models both a missing `<a>` and a missing
`href` attribute, which raise `TypeError` / `KeyError` alike). -/
structure ListingRow where
  tds : List String
  anchorHref : Option String
deriving DecidableEq, Repr

/-- `' '.join(...)` over a list of strings. -/
def joinSpace : List String → String
  | [] => ""
  | [x] => x
  | x :: xs => x ++ " " ++ joinSpace xs

/-- `' '.join(td.text.strip() for td in row.find_all('td')[1:3])`. -/
def posted_str (row : ListingRow) : String :=
  joinSpace ((row.tds.drop 1).take 2)

/-- The `for row in rows` loop of `get_most_recent_link`, with the
running state (`most_recent_link`, `most_recent_posted`, `file_list`)
made explicit.  Any exception inside the `try` block is converted to
`DataProcessingError` by the function's handler. -/
def gmrl_loop : List ListingRow → Option String → DateTime → List String →
    Except PyErr (Option String × DateTime × List String)
  | [], link, best, files => .ok (link, best, files)
  | row :: rest, link, best, files =>
    match strptime_mdy_hms (posted_str row) with
    | none =>
      .error (.dataProcessing "Error finding the most recent link: time data does not match format")
    | some dt =>
      let files1 := files ++ [posted_str row]
      if dtGtB dt best then
        match row.anchorHref with
        | none =>
          .error (.dataProcessing "Error finding the most recent link: row has no anchor href")
        | some href => gmrl_loop rest (some href) dt files1
      else gmrl_loop rest link best files1

/-- `get_most_recent_link(rows)` (lines 139-163 of the source). -/
def get_most_recent_link (rows : List ListingRow) :
    Except PyErr (Option String × DateTime × List String) :=
  gmrl_loop rows none dtMin []

/- ### Paths (`os.path` on POSIX) and the filesystem -/

/-- `s.startswith(pre)`. -/
def strStarts (s pre : String) : Bool := pre.data.isPrefixOf s.data

/-- `s.endswith(suf)`. -/
def strEnds (s suf : String) : Bool := suf.data.isSuffixOf s.data

/-- Drop the first `n` characters of a string. -/
def strDrop (s : String) (n : Nat) : String := ⟨s.data.drop n⟩

/-- `posixpath.join(a, b)` for two components. -/
def joinPath (a b : String) : String :=
  if strStarts b "/" then b
  else if a = "" ∨ strEnds a "/" then a ++ b
  else a ++ "/" ++ b

/-- `posixpath.expanduser` restricted to the `~`-prefix cases the
program exercises (`home` is the value of the HOME environment
variable; a path not starting with `~` is returned unchanged). -/
def expanduser (home s : String) : String :=
  if s = "~" then home
  else if strStarts s "~/" then home ++ strDrop s 1
  else s

/-- `get_folder_path(folder_name, use_absolute_path)` (lines 46-58). -/
def get_folder_path (home folderName : String) (useAbsolutePath : Bool) : String :=
  if useAbsolutePath then expanduser home (joinPath "~" folderName)
  else folderName

/-- A flat model of the filesystem: the set of existing directories and
the existing regular files with their byte contents.  Only the
operations the program performs are modelled. -/
structure FS where
  dirs : List String
  files : List (String × String)
deriving DecidableEq, Repr

/-- `q` lies in the subtree rooted at `root` (including `root` itself). -/
def pathWithin (root q : String) : Bool :=
  q == root || strStarts q (root ++ "/")

/-- `os.path.exists`. -/
def FS.existsPath (fs : FS) (p : String) : Bool :=
  fs.dirs.contains p || fs.files.any (fun f => f.1 == p)

/-- `shutil.rmtree`: removes the whole subtree rooted at `p`. -/
def FS.rmtree (fs : FS) (p : String) : FS :=
  ⟨fs.dirs.filter (fun d => !pathWithin p d),
   fs.files.filter (fun f => !pathWithin p f.1)⟩

/-- `os.makedirs` (the program only ever calls it when the directory is
absent or with `exist_ok=True`, so both calls share this model;
intermediate parents are not tracked by the flat model). -/
def FS.mkdir (fs : FS) (p : String) : FS :=
  if fs.dirs.contains p then fs else ⟨fs.dirs ++ [p], fs.files⟩

/-- `open(p, 'wb').write(c)`: create or overwrite a file. -/
def FS.writeFile (fs : FS) (p c : String) : FS :=
  ⟨fs.dirs, fs.files.filter (fun f => f.1 != p) ++ [(p, c)]⟩

/-- Read a file's content. -/
def FS.readFile (fs : FS) (p : String) : Option String :=
  (fs.files.find? (fun f => f.1 == p)).map Prod.snd

/-- The entry name when `q` is a direct child of directory `root`. -/
def childName (root q : String) : Option String :=
  if strStarts q (root ++ "/") then
    let rest := q.data.drop (root.data.length + 1)
    if rest ≠ [] ∧ ¬ (rest.contains '/') then some (⟨rest⟩ : String) else none
  else none

/-- `os.listdir`. -/
def FS.listdir (fs : FS) (root : String) : List String :=
  (fs.dirs ++ fs.files.map Prod.fst).filterMap (childName root)

/-- `clear_unzip_folder(folder_name)` (lines 61-70): note that it
re-applies `expanduser(join("~", folder_name))` to its argument. -/
def clear_unzip_folder (home : String) (fs : FS) (folderName : String) : FS :=
  let unzipFolder := expanduser home (joinPath "~" folderName)
  let fs1 := if fs.existsPath unzipFolder then fs.rmtree unzipFolder else fs
  fs1.mkdir unzipFolder

/-- `zipfile.ZipFile.extractall` sanitization of one member name:
drop empty, `.` and `..` components and leading separators. -/
def sanitizeMemberName (name : String) : String :=
  joinSlash (((splitOnChar '/' name.data).map (fun l => (⟨l⟩ : String))).filter
    (fun part => part ≠ "" ∧ part ≠ "." ∧ part ≠ ".."))
where
  joinSlash : List String → String
    | [] => ""
    | [x] => x
    | x :: xs => x ++ "/" ++ joinSlash xs

/-- The member-by-member loop of `extractall`. -/
def extractAllGo (unzipFolder : String) : FS → List (String × String) → FS
  | fs, [] => fs
  | fs, m :: rest =>
    let t := sanitizeMemberName m.1
    extractAllGo unzipFolder
      (if t = "" then fs else fs.writeFile (unzipFolder ++ "/" ++ t) m.2) rest

/-- `zip_ref.extractall(unzip_folder)`: write every archive member
under the extraction directory. -/
def extractAll (fs : FS) (unzipFolder : String) (members : List (String × String)) : FS :=
  extractAllGo unzipFolder fs members

/- ### DataFrames (the slice of pandas the program uses) -/

/-- A pandas `DataFrame`: a row count and named columns (each holding
one value per row; cell values are modelled as strings). -/
structure DF where
  nRows : Nat
  cols : List (String × List String)
deriving DecidableEq, Repr

/-- `pd.DataFrame()`. -/
def DF.empty : DF := ⟨0, []⟩

/-- `df[name] = scalar`: broadcast a scalar to every row, replacing the
column when it exists and appending it otherwise (on a zero-row frame
this creates an empty column). -/
def DF.setCol (df : DF) (name val : String) : DF :=
  if df.cols.any (fun c => c.1 == name) then
    ⟨df.nRows, df.cols.map (fun c =>
      if c.1 = name then (c.1, List.replicate df.nRows val) else c)⟩
  else ⟨df.nRows, df.cols ++ [(name, List.replicate df.nRows val)]⟩

/-- `df[name]`: the first column of that label. -/
def DF.getCol (df : DF) (name : String) : Option (List String) :=
  (df.cols.find? (fun c => c.1 == name)).map Prod.snd

/- ### The rendered page and the external collaborators -/

/-- The report table of a rendered listing page: the text of its
`class="name"` cell (if any) and its data rows (`find_all('tr')[1:]`,
header already sliced off as the program does). -/
structure ReportTable where
  nameCell : Option String
  rows : List ListingRow
deriving Repr

/-- A rendered page: `soup.find('table', {'id': 'reportTable'})`
either finds the table or returns `None`. -/
structure PageDoc where
  reportTable : Option ReportTable
deriving Repr

/-- Outcome of the Selenium render of one URL. -/
inductive RenderOutcome where
  | ok (page : PageDoc)
  | chromeStartFailure (msg : String)
  | otherFailure (msg : String)
deriving Repr

/-- Outcome of `requests.get` on a real URL. -/
inductive FetchOutcome where
  | ok (content : String)
  | transportError (msg : String)
deriving Repr

/-- The external collaborators of one run, as oracles: the renderer
outcome, the HTTP transport, the zip decoder (`none` = `BadZipFile`),
the CSV reader (`none` = a pandas parse/decode error), and the HOME
directory the path helpers expand `~` to. -/
structure ScrapeEnv where
  render : RenderOutcome
  fetch : String → FetchOutcome
  unzip : String → Option (List (String × String))
  readCsv : String → Option DF
  home : String

/-- `get_rendered_html(url, webdriver_path)` (lines 89-119).  A
`WebDriverException` from `webdriver.Chrome` makes the inner handler
raise `MissingDependencyError`, but that raise happens inside the outer
`try`, whose `except Exception` catches it and re-raises it as
`DataFetchingError`. -/
def get_rendered_html (_url _webdriverPath : String) (o : RenderOutcome) :
    Except PyErr PageDoc :=
  match o with
  | .ok page => .ok page
  | .chromeStartFailure _ =>
    .error (.dataFetching
      ("Error fetching rendered HTML: ChromeDriver is missing or not set up properly. "
        ++ "Please install and configure it correctly."))
  | .otherFailure m => .error (.dataFetching ("Error fetching rendered HTML: " ++ m))

/-- `get_csv_file_name(soup)` (lines 122-136). -/
def get_csv_file_name (page : PageDoc) : Except PyErr String :=
  match page.reportTable with
  | none =>
    .error (.dataProcessing "Error extracting CSV file name: NoneType has no attribute find")
  | some t =>
    match t.nameCell with
    | none =>
      .error (.dataProcessing "Error extracting CSV file name: NoneType has no attribute text")
    | some s => .ok s

/-- Lines 184-185: `soup.find('table', {'id': 'reportTable'}).find_all('tr')[1:]`;
an absent table raises `AttributeError`, caught only by the generic
handler of `process_url`. -/
def getReportRows (page : PageDoc) : Except PyErr (List ListingRow) :=
  match page.reportTable with
  | none => .error (.other "AttributeError: NoneType has no attribute find_all")
  | some t => .ok t.rows

/-- Line 189: `requests.get(most_recent_link)`.  When the selector
returned `None`, `requests` raises `MissingSchema`; transport errors
are `requests` exceptions as well — both reach only the generic
`except Exception` of `process_url`. -/
def requests_get (env : ScrapeEnv) : Option String → Except PyErr String
  | none => .error (.other "MissingSchema: Invalid URL None: No scheme supplied")
  | some url =>
    match env.fetch url with
    | .ok content => .ok content
    | .transportError m => .error (.other m)

/- ### `process_url` (lines 166-230) -/

/-- Left-pad a number with zeros to `w` digits. -/
def padNat (w n : Nat) : String :=
  (⟨List.replicate (w - (Nat.repr n).length) '0'⟩ : String) ++ Nat.repr n

/-- `most_recent_posted.strftime("%Y%m%d_%H%M%S")`. -/
def strftimeYmdHMS (d : DateTime) : String :=
  padNat 4 d.year ++ padNat 2 d.month ++ padNat 2 d.day ++ "_"
    ++ padNat 2 d.hour ++ padNat 2 d.minute ++ padNat 2 d.second

/-- The basename of the persisted archive (lines 201-203):
`f'{csv_file_name}_{most_recent_posted.strftime("%Y%m%d_%H%M%S")}.zip'`. -/
def zipBasename (csvFileName : String) (posted : DateTime) : String :=
  csvFileName ++ "_" ++ strftimeYmdHMS posted ++ ".zip"

/-- Line 191: `get_folder_path("downloads")`. -/
def downloadsFolder (home : String) : String :=
  get_folder_path home "downloads" true

/-- Lines 192-193: the per-source extraction directory
`get_folder_path(f"downloads/unzipped_files/{url_key}")`. -/
def unzipFolderOf (home urlKey : String) : String :=
  get_folder_path home ("downloads/unzipped_files/" ++ urlKey) true

/-- Lines 196-199: clear the per-source workspace, then ensure the
downloads directory and the workspace exist. -/
def prepare_workspace (home : String) (fs : FS) (urlKey : String) : FS :=
  let fs1 := clear_unzip_folder home fs (unzipFolderOf home urlKey)
  let fs2 := fs1.mkdir (downloadsFolder home)
  fs2.mkdir (unzipFolderOf home urlKey)

/-- Lines 212-213: pick the first directory entry of the workspace and
parse it with `pd.read_csv`. -/
def load_stage (env : ScrapeEnv) (fs : FS) (unzipFolder : String) : Except PyErr DF :=
  match fs.listdir unzipFolder with
  | [] => .error (.other "IndexError: list index out of range")
  | entry :: _ =>
    match fs.readFile (joinPath unzipFolder entry) with
    | none => .error (.other "FileNotFoundError")
    | some content =>
      match env.readCsv content with
      | none => .error (.other "pandas parser error")
      | some df => .ok df

/-- The `try` block of `process_url` (lines 178-216): either the success
quadruple together with the filesystem after the run, or the raised
exception together with the filesystem at the moment of the raise. -/
def processUrlTry (env : ScrapeEnv) (fs : FS) (urlKey urlValue : String) :
    Except (PyErr × FS) ((DF × String × String × String) × FS) :=
  match get_rendered_html urlValue "/chromedriver_mac64/chromedriver" env.render with
  | .error e => .error (e, fs)
  | .ok page =>
  match get_csv_file_name page with
  | .error e => .error (e, fs)
  | .ok csvFileName =>
  match getReportRows page with
  | .error e => .error (e, fs)
  | .ok rows =>
  match get_most_recent_link rows with
  | .error e => .error (e, fs)
  | .ok (mostRecentLink, mostRecentPosted, _fileList) =>
  match requests_get env mostRecentLink with
  | .error e => .error (e, fs)
  | .ok content =>
    let unzipFolder := unzipFolderOf env.home urlKey
    let fs3 := prepare_workspace env.home fs urlKey
    let zipFilename := joinPath (downloadsFolder env.home) (zipBasename csvFileName mostRecentPosted)
    let fs4 := fs3.writeFile zipFilename content
    match env.unzip content with
    | none => .error (.other "BadZipFile: File is not a zip file", fs4)
    | some members =>
      let fs5 := extractAll fs4 unzipFolder members
      match load_stage env fs5 unzipFolder with
      | .error e => .error (e, fs5)
      | .ok df0 =>
        .ok ((df0.setCol "report_name" urlKey, zipFilename, unzipFolder, csvFileName), fs5)

/-- The result `process_url` returns after one of its handlers fired
(lines 227-230): `pd.DataFrame()` given a `report_name` column. -/
def reportNameOnlyDF (urlKey : String) : DF :=
  DF.empty.setCol "report_name" urlKey

/-- `process_url(url_key, url_value)` (lines 166-230): every exception
of the pipeline is caught at this boundary and converted into the
empty result. -/
def process_url (env : ScrapeEnv) (fs : FS) (urlKey urlValue : String) :
    (DF × Option String × Option String × Option String) × FS :=
  match processUrlTry env fs urlKey urlValue with
  | .ok ((df, zf, uz, csv), fs1) => ((df, some zf, some uz, some csv), fs1)
  | .error (_, fs1) => ((reportNameOnlyDF urlKey, none, none, none), fs1)

/- ### `main` (lines 233-251) -/

/-- The configured sources (lines 20-26), in iteration order. -/
def urls : List (String × String) :=
  [("Demand", "https://www.ercot.com/mp/data-products/data-product-details?id=NP3-560-CD"),
   ("Solar", "https://www.ercot.com/mp/data-products/data-product-details?id=NP4-745-CD"),
   ("Wind", "https://www.ercot.com/mp/data-products/data-product-details?id=NP4-732-CD"),
   ("Reserves", "https://www.ercot.com/mp/data-products/data-product-details?id=NP3-763-CD"),
   ("Outages", "https://www.ercot.com/mp/data-products/data-product-details?id=NP3-233-CD")]

/-- The observable outcome of `main`: the `dataframes` dict, the
`report` dict, the final filesystem, and the key of every `process_url`
invocation that was made, in order. -/
structure MainOut where
  dataframes : List (String × DF)
  report : List (String × (Option String × Option String × Option String))
  fs : FS
  calls : List String

/-- The `for url_key, url_value in progress_bar` loop (lines 239-243):
line 241 calls `process_url` for the stored table and line 242 calls it
again, separately, for the reporting tuple. -/
def mainLoop (env : ScrapeEnv) : List (String × String) → FS → MainOut
  | [], fs => ⟨[], [], fs, []⟩
  | (urlKey, urlValue) :: rest, fs =>
    let r1 := process_url env fs urlKey urlValue
    let r2 := process_url env r1.2 urlKey urlValue
    let out := mainLoop env rest r2.2
    ⟨(urlKey, r1.1.1) :: out.dataframes,
     (urlKey, r2.1.2) :: out.report,
     out.fs,
     urlKey :: urlKey :: out.calls⟩

/-- `main()` over the configured sources. -/
def main_run (env : ScrapeEnv) (fs : FS) : MainOut :=
  mainLoop env urls fs

/- ### Auxiliary definitions used by the statements below -/

/-- The update the loop performs on its running maximum. -/
def dtMaxB (b x : DateTime) : DateTime := if dtGtB x b then x else b

/-- Running maximum of the loop after a list of parsed timestamps. -/
def prefixMaxDt (b : DateTime) (l : List DateTime) : DateTime :=
  l.foldl dtMaxB b

/-- The parsed posting timestamp of a row (`dtMin` as a don't-care
default for rows that fail to parse). -/
def postedDt (row : ListingRow) : DateTime :=
  (strptime_mdy_hms (posted_str row)).getD dtMin

/-- A listing row is well-formed when its timestamp text parses and it
carries an anchor link. -/
def WellFormedRow (row : ListingRow) : Prop :=
  (strptime_mdy_hms (posted_str row)).isSome ∧ row.anchorHref.isSome

/-- A concrete environment whose renderer cannot start (ChromeDriver
missing), used to exercise the failure boundary. -/
def envRenderFail : ScrapeEnv :=
  ⟨.chromeStartFailure "chromedriver executable needs to be in PATH",
   fun _ => .transportError "ConnectionError", fun _ => none, fun _ => none,
   "/Users/roozbeh"⟩

/-- A concrete environment whose page renders with an empty report
table (zero candidate rows). -/
def envEmptyListing : ScrapeEnv :=
  ⟨.ok ⟨some ⟨some "DemandData", []⟩⟩,
   fun _ => .transportError "ConnectionError", fun _ => none, fun _ => none,
   "/Users/roozbeh"⟩

/-- A concrete environment that renders one well-formed candidate row,
fetches its archive bytes, and then fails to unzip them
(`BadZipFile`), used to exercise non-atomic failure. -/
def envBadZip : ScrapeEnv :=
  ⟨.ok ⟨some ⟨some "DemandData",
      [⟨["cdr.00013101.0000000000000000.DemandData.zip", "03/01/2024", "02:05:30 PM"],
        some "https://mis.ercot.com/misdownload/doclookup?doclookupId=1"⟩]⟩⟩,
   fun _ => .ok "PK-bytes-not-a-zip", fun _ => none, fun _ => none,
   "/Users/roozbeh"⟩

/-- The empty starting filesystem. -/
def fsEmpty : FS := ⟨[], []⟩

/-- A starting filesystem holding a stale payload file from a prior
run inside the Demand workspace. -/
def fsStale : FS :=
  ⟨["/Users/roozbeh", "/Users/roozbeh/downloads",
    "/Users/roozbeh/downloads/unzipped_files",
    "/Users/roozbeh/downloads/unzipped_files/Demand"],
   [("/Users/roozbeh/downloads/unzipped_files/Demand/old_payload.csv", "stale,data")]⟩

/- ### Helper lemmas -/

theorem dtLt_irrefl (a : DateTime) : ¬ dtLt a a := by
  unfold dtLt; omega

theorem dtLt_trans {a b c : DateTime} (h1 : dtLt a b) (h2 : dtLt b c) : dtLt a c := by
  unfold dtLt at *; omega

theorem dtLt_total (a b : DateTime) : dtLt a b ∨ a = b ∨ dtLt b a := by
  cases a; cases b
  simp only [DateTime.mk.injEq, dtLt]
  omega

theorem dtGtB_iff {a b : DateTime} : dtGtB a b = true ↔ dtLt b a := by
  simp [dtGtB]

theorem dtGtB_false_iff {a b : DateTime} : dtGtB a b = false ↔ ¬ dtLt b a := by
  simp [dtGtB]


theorem mainLoop_calls (env : ScrapeEnv) :
    ∀ (l : List (String × String)) (fs : FS),
      (mainLoop env l fs).calls = l.foldr (fun kv acc => kv.1 :: kv.1 :: acc) []
  | [], _ => rfl
  | (k, v) :: rest, fs => by
    simp [mainLoop, mainLoop_calls env rest]

theorem mainLoop_report_keys (env : ScrapeEnv) :
    ∀ (l : List (String × String)) (fs : FS),
      ((mainLoop env l fs).report).map Prod.fst = l.map Prod.fst
  | [], _ => rfl
  | (k, v) :: rest, fs => by
    simp [mainLoop, mainLoop_report_keys env rest]

theorem findCol_map_set {n val : String} {r : Nat} :
    ∀ (cs : List (String × List String)), cs.any (fun c => c.1 == n) = true →
      (cs.map (fun c => if c.1 = n then (c.1, List.replicate r val) else c)).find?
        (fun c => c.1 == n) = some (n, List.replicate r val)
  | [], h => by simp at h
  | c :: cs, h => by
    by_cases hc : c.1 = n
    · rw [List.map_cons, if_pos hc, List.find?_cons_of_pos _ (by simp [hc]), hc]
    · have h2 : cs.any (fun c => c.1 == n) = true := by
        simp only [List.any_cons, Bool.or_eq_true, beq_iff_eq] at h
        rcases h with h | h
        · exact absurd h hc
        · simpa using h
      rw [List.map_cons, if_neg hc, List.find?_cons_of_neg _ (by simp [hc])]
      exact findCol_map_set cs h2

theorem findCol_append_new {n val : String} {r : Nat} :
    ∀ (cs : List (String × List String)), cs.any (fun c => c.1 == n) = false →
      (cs ++ [(n, List.replicate r val)]).find? (fun c => c.1 == n) =
        some (n, List.replicate r val)
  | [], _ => by simp [List.find?]
  | c :: cs, h => by
    simp only [List.any_cons, Bool.or_eq_false_iff, beq_eq_false_iff_ne] at h
    rw [List.cons_append, List.find?_cons_of_neg _ (by simp [h.1])]
    exact findCol_append_new cs (by simp [h.2])

theorem DF.getCol_setCol (df : DF) (n val : String) :
    (df.setCol n val).getCol n = some (List.replicate df.nRows val) := by
  unfold DF.setCol DF.getCol
  by_cases h : df.cols.any (fun c => c.1 == n) = true
  · simp only [h, if_true]
    rw [findCol_map_set df.cols h]
    rfl
  · simp only [Bool.not_eq_true] at h
    simp only [h, Bool.false_eq_true, if_false]
    rw [findCol_append_new df.cols h]
    rfl

theorem DF.nRows_setCol (df : DF) (n val : String) :
    (df.setCol n val).nRows = df.nRows := by
  unfold DF.setCol
  split <;> rfl

theorem processUrlTry_ok_df {env : ScrapeEnv} {fs : FS} {k v : String}
    {df : DF} {zf uz cn : String} {fs1 : FS}
    (h : processUrlTry env fs k v = .ok ((df, zf, uz, cn), fs1)) :
    ∃ df0, df = DF.setCol df0 "report_name" k := by
  unfold processUrlTry at h
  repeat' split at h
  any_goals exact Except.noConfusion h
  dsimp only at h
  split at h
  · exact Except.noConfusion h
  · simp only [Except.ok.injEq, Prod.mk.injEq] at h
    exact ⟨_, h.1.1.symm⟩

/- ### Claim theorems -/

/-- C7: the persisted archive filename is the deterministic function
`zipBasename` of the payload name and the selected candidate's posting
timestamp (the function `process_url` persists the download under,
lines 201-203); payload name `DemandData` with posting timestamp
2024-03-01 14:05:30 yields `DemandData_20240301_140530.zip`. -/
theorem claim_C7_archive_filename :
    zipBasename "DemandData" ⟨2024, 3, 1, 14, 5, 30⟩ = "DemandData_20240301_140530.zip" := by
  decide

/-- C9 (code bug): when the renderer cannot start, `get_rendered_html`
does NOT surface `MissingDependencyError`: the inner handler raises it
inside the outer `try`, whose `except Exception` converts it into a
generic `DataFetchingError`; indeed every outcome of the function is
either a page or a `DataFetchingError`, so the caller cannot
distinguish a configuration problem from a transient fetch problem. -/
theorem claim_C9_fetch_error_shadows_dependency_error :
    (get_rendered_html "https://www.ercot.com/mp/data-products/data-product-details?id=NP3-560-CD"
        "/chromedriver_mac64/chromedriver"
        (.chromeStartFailure "chromedriver executable needs to be in PATH") =
      .error (.dataFetching
        ("Error fetching rendered HTML: ChromeDriver is missing or not set up properly. "
          ++ "Please install and configure it correctly.")))
    ∧ ∀ (u w : String) (o : RenderOutcome),
        (∃ page, get_rendered_html u w o = .ok page) ∨
        (∃ msg, get_rendered_html u w o = .error (.dataFetching msg)) := by
  refine ⟨rfl, fun u w o => ?_⟩
  cases o with
  | ok page => exact .inl ⟨page, rfl⟩
  | chromeStartFailure m => exact .inr ⟨_, rfl⟩
  | otherFailure m => exact .inr ⟨_, rfl⟩

/-- C3 (counterexample): on an empty listing manifest,
`get_most_recent_link` does not fail with a selection error — it
returns successfully with no link (`None`), `datetime.min` and an
empty file list. -/
theorem claim_C3_counterexample :
    get_most_recent_link ([] : List ListingRow) = .ok (none, dtMin, []) := rfl

/-- C3 (amended): on an empty listing manifest selection succeeds with
link `None`, and the pipeline then DOES proceed to the fetch stage with
no URL: `requests.get(None)` raises `MissingSchema`, which is caught by
the generic per-source handler, so `process_url` returns the empty
result with the filesystem untouched. -/
theorem claim_C3_amended (env : ScrapeEnv) (fs : FS) (k v : String)
    (page : PageDoc) (t : ReportTable) (name : String)
    (hr : env.render = .ok page) (ht : page.reportTable = some t)
    (hn : t.nameCell = some name) (hrows : t.rows = []) :
    processUrlTry env fs k v =
      .error (.other "MissingSchema: Invalid URL None: No scheme supplied", fs)
    ∧ process_url env fs k v = ((reportNameOnlyDF k, none, none, none), fs) := by
  have h1 : processUrlTry env fs k v =
      .error (.other "MissingSchema: Invalid URL None: No scheme supplied", fs) := by
    unfold processUrlTry
    rw [hr]
    simp only [get_rendered_html, get_csv_file_name, ht, hn, getReportRows, hrows,
      get_most_recent_link, gmrl_loop, requests_get]
  exact ⟨h1, by simp only [process_url, h1]⟩

/-- C3 (witness for the amended claim at a concrete input). -/
theorem claim_C3_witness :
    process_url envEmptyListing fsEmpty "Demand" "u" =
      ((reportNameOnlyDF "Demand", none, none, none), fsEmpty) :=
  (claim_C3_amended envEmptyListing fsEmpty "Demand" "u"
    ⟨some ⟨some "DemandData", []⟩⟩ ⟨some "DemandData", []⟩ "DemandData"
    rfl rfl rfl rfl).2

/-- C4 (code bug): `main` performs TWO retrievals per configured
source, not one — line 241 invokes `process_url` for the stored table
and line 242 invokes it again for the reporting tuple, so every source
key appears exactly twice in the invocation log (e.g. `Demand`). -/
theorem claim_C4_duplicate_invocation (env : ScrapeEnv) (fs : FS) :
    (main_run env fs).calls =
      ["Demand", "Demand", "Solar", "Solar", "Wind", "Wind",
       "Reserves", "Reserves", "Outages", "Outages"]
    ∧ (main_run env fs).calls.count "Demand" = 2 := by
  have h := mainLoop_calls env urls fs
  rw [main_run] at *
  rw [h]
  exact ⟨rfl, by decide⟩

/-- C5: for every source and every outcome, the table of the result of
`process_url` carries a `report_name` column every entry of which is
the source key — a column of `nRows` copies of the key, present even
when the table has zero rows. -/
theorem claim_C5_report_name_column (env : ScrapeEnv) (fs : FS) (k v : String) :
    ((process_url env fs k v).1.1).getCol "report_name" =
      some (List.replicate ((process_url env fs k v).1.1).nRows k) := by
  unfold process_url
  cases hTry : processUrlTry env fs k v with
  | error e =>
    obtain ⟨e1, fs1⟩ := e
    simpa [reportNameOnlyDF, DF.nRows_setCol] using
      DF.getCol_setCol DF.empty "report_name" k
  | ok val =>
    obtain ⟨⟨df, zf, uz, cn⟩, fs1⟩ := val
    obtain ⟨df0, rfl⟩ := processUrlTry_ok_df hTry
    simpa [DF.nRows_setCol] using DF.getCol_setCol df0 "report_name" k

/-- C1: every failure of the per-source pipeline is caught at the
`process_url` boundary and converted into the empty result (empty
table carrying only the `report_name` column, and `None` for archive
path, extraction directory and payload name), and the aggregate
`report` manifest of `main` has exactly one entry per configured
source, in order. -/
theorem claim_C1_per_source_failures_caught (env : ScrapeEnv) (fs : FS) (k v : String) :
    (∀ (e : PyErr) (fs1 : FS), processUrlTry env fs k v = .error (e, fs1) →
      process_url env fs k v = ((reportNameOnlyDF k, none, none, none), fs1))
    ∧ ((main_run env fs).report).map Prod.fst = urls.map Prod.fst := by
  constructor
  · intro e fs1 h
    simp only [process_url, h]
  · rw [main_run, mainLoop_report_keys]

/-- C1 (witness): a renderer that cannot start is caught and converted
into the empty result at a concrete input. -/
theorem claim_C1_witness :
    process_url envRenderFail fsEmpty "Demand" "u" =
      ((reportNameOnlyDF "Demand", none, none, none), fsEmpty) :=
  (claim_C1_per_source_failures_caught envRenderFail fsEmpty "Demand" "u").1
    (.dataFetching
      ("Error fetching rendered HTML: ChromeDriver is missing or not set up properly. "
        ++ "Please install and configure it correctly."))
    fsEmpty rfl

/- ### Path computation lemmas (for C6 and C10) -/

theorem str_ext {a b : String} (h : a.data = b.data) : a = b := by
  cases a; cases b; exact congrArg String.mk h

theorem str_data_append (a b : String) : (a ++ b).data = a.data ++ b.data :=
  String.data_append a b

theorem isPrefixOf_append_of_le :
    ∀ (p a b : List Char), p.length ≤ a.length →
      (p.isPrefixOf (a ++ b)) = p.isPrefixOf a
  | [], _, _, _ => by simp [List.isPrefixOf]
  | p :: ps, [], _, h => by simp at h
  | p :: ps, x :: xs, b, h => by
    simp only [List.cons_append, List.isPrefixOf, List.append_eq]
    rw [isPrefixOf_append_of_le ps xs b (by simpa using h)]

theorem strStarts_append_left (s t pre : String) (h : pre.data.length ≤ s.data.length) :
    strStarts (s ++ t) pre = strStarts s pre := by
  simp only [strStarts, str_data_append]
  exact isPrefixOf_append_of_le pre.data s.data t.data h

theorem strStarts_slash_append {home : String} (x : String)
    (h : strStarts home "/" = true) : strStarts (home ++ x) "/" = true := by
  rw [strStarts_append_left home x "/"]
  · exact h
  · have h2 := (List.isPrefixOf_iff_prefix.mp h).length_le
    simpa using h2

theorem get_folder_path_abs (home name : String) (hn : strStarts name "/" = false) :
    get_folder_path home name true = home ++ "/" ++ name := by
  have hjoin : joinPath "~" name = "~/" ++ name := by
    unfold joinPath
    rw [if_neg (by simp [hn]), if_neg (by decide)]
    rfl
  have hdata : ("~/" ++ name).data = '~' :: '/' :: name.data := by
    rw [str_data_append]; rfl
  have hne : ("~/" ++ name) ≠ "~" := by
    intro hcontra
    have h2 := congrArg String.data hcontra
    rw [hdata] at h2
    injection h2 with h3 h4
    injection h4
  have hst : strStarts ("~/" ++ name) "~/" = true := by
    simp only [strStarts, hdata]
    simp [List.isPrefixOf]
  have hexp : expanduser home ("~/" ++ name) = home ++ strDrop ("~/" ++ name) 1 := by
    unfold expanduser
    rw [if_neg hne, if_pos hst]
  unfold get_folder_path
  rw [if_pos rfl, hjoin, hexp]
  refine str_ext ?_
  simp only [str_data_append, strDrop, hdata, List.drop_succ_cons, List.drop_zero,
    List.append_assoc]
  rfl

theorem unzipFolderOf_eq (home k : String) :
    unzipFolderOf home k = home ++ "/" ++ ("downloads/unzipped_files/" ++ k) := by
  unfold unzipFolderOf
  refine get_folder_path_abs home _ ?_
  rw [strStarts_append_left "downloads/unzipped_files/" k "/" (by decide)]
  decide

theorem downloadsFolder_eq (home : String) :
    downloadsFolder home = home ++ "/" ++ "downloads" := by
  unfold downloadsFolder
  exact get_folder_path_abs home "downloads" (by decide)

theorem unzipFolderOf_starts_slash {home : String} (k : String)
    (h : strStarts home "/" = true) : strStarts (unzipFolderOf home k) "/" = true := by
  rw [unzipFolderOf_eq]
  exact strStarts_slash_append _ (strStarts_slash_append _ h)

theorem unzipFolderOf_inj {home k k1 : String}
    (h : unzipFolderOf home k = unzipFolderOf home k1) : k = k1 := by
  rw [unzipFolderOf_eq, unzipFolderOf_eq] at h
  have hd := congrArg String.data h
  simp only [str_data_append, List.append_assoc] at hd
  have h1 := List.append_cancel_left hd
  have h2 := List.append_cancel_left h1
  exact str_ext (List.append_cancel_left h2)

theorem clear_unzip_folder_abs (home : String) (fs : FS) (p : String)
    (hp : strStarts p "/" = true) :
    clear_unzip_folder home fs p =
      (if fs.existsPath p then fs.rmtree p else fs).mkdir p := by
  obtain ⟨t, ht⟩ := List.isPrefixOf_iff_prefix.mp hp
  have hp2 : p.data = '/' :: t := by rw [← ht]; rfl
  have hne : p ≠ "~" := by
    intro hcontra
    rw [hcontra] at hp2
    injection hp2 with h1 h2
    exact absurd h1 (by decide)
  have hst2 : strStarts p "~/" = false := by
    simp only [strStarts, hp2]
    rfl
  unfold clear_unzip_folder joinPath expanduser
  rw [if_pos hp, if_neg hne, if_neg (by simp [hst2])]

theorem mkdir_contains_self (fs : FS) (p : String) :
    (fs.mkdir p).dirs.contains p = true := by
  unfold FS.mkdir
  split
  · assumption
  · simp

theorem mkdir_contains_mono (fs : FS) (p q : String)
    (h : fs.dirs.contains q = true) : (fs.mkdir p).dirs.contains q = true := by
  unfold FS.mkdir
  split
  · exact h
  · simp at h ⊢
    exact .inl h

theorem mkdir_files (fs : FS) (p : String) : (fs.mkdir p).files = fs.files := by
  unfold FS.mkdir
  split <;> rfl

theorem prepare_workspace_dirs (home : String) (fs : FS) (k : String)
    (hhome : strStarts home "/" = true) :
    (prepare_workspace home fs k).dirs.contains (unzipFolderOf home k) = true := by
  unfold prepare_workspace
  rw [clear_unzip_folder_abs home fs _ (unzipFolderOf_starts_slash k hhome)]
  exact mkdir_contains_mono _ _ _ (mkdir_contains_mono _ _ _ (mkdir_contains_self _ _))

theorem prepare_workspace_files (home : String) (fs : FS) (k : String)
    (hhome : strStarts home "/" = true)
    (hwf : fs.files.any (fun f => pathWithin (unzipFolderOf home k) f.1) = true →
      fs.existsPath (unzipFolderOf home k) = true) :
    (prepare_workspace home fs k).files.all
      (fun f => !pathWithin (unzipFolderOf home k) f.1) = true := by
  unfold prepare_workspace
  rw [clear_unzip_folder_abs home fs _ (unzipFolderOf_starts_slash k hhome)]
  rw [mkdir_files, mkdir_files, mkdir_files]
  by_cases hex : fs.existsPath (unzipFolderOf home k) = true
  · rw [if_pos hex]
    unfold FS.rmtree
    simp only [List.all_eq_true, List.mem_filter]
    intro f hf
    exact hf.2
  · rw [if_neg hex]
    simp only [List.all_eq_true]
    intro f hf
    cases hpw : pathWithin (unzipFolderOf home k) f.1 with
    | false => rfl
    | true =>
      exact absurd (hwf (by
        simp only [List.any_eq_true]
        exact ⟨f, hf, hpw⟩)) hex

/-- C6: `clear_unzip_folder` followed by the two `makedirs` calls
(`prepare_workspace`, lines 192-199 wrapping lines 61-70) leaves the
per-source workspace directory existing with no file anywhere in its
subtree (any stale payload of a prior run is removed), and two distinct
source keys always map to distinct workspace directories. -/
theorem claim_C6_workspace_reset (home : String) (fs : FS) (k k1 : String)
    (hhome : strStarts home "/" = true)
    (hwf : fs.files.any (fun f => pathWithin (unzipFolderOf home k) f.1) = true →
      fs.existsPath (unzipFolderOf home k) = true)
    (hkk : k ≠ k1) :
    ((prepare_workspace home fs k).dirs.contains (unzipFolderOf home k) = true
      ∧ (prepare_workspace home fs k).files.all
          (fun f => !pathWithin (unzipFolderOf home k) f.1) = true)
    ∧ unzipFolderOf home k ≠ unzipFolderOf home k1 :=
  ⟨⟨prepare_workspace_dirs home fs k hhome, prepare_workspace_files home fs k hhome hwf⟩,
   fun h => hkk (unzipFolderOf_inj h)⟩

/-- C6 (witness): a stale payload file in the Demand workspace is
removed by the reset at a concrete input, and the Demand and Solar
workspaces differ. -/
theorem claim_C6_witness :
    ((prepare_workspace "/Users/roozbeh" fsStale "Demand").dirs.contains
        (unzipFolderOf "/Users/roozbeh" "Demand") = true
      ∧ (prepare_workspace "/Users/roozbeh" fsStale "Demand").files.all
          (fun f => !pathWithin (unzipFolderOf "/Users/roozbeh" "Demand") f.1) = true)
    ∧ unzipFolderOf "/Users/roozbeh" "Demand" ≠ unzipFolderOf "/Users/roozbeh" "Solar" :=
  claim_C6_workspace_reset "/Users/roozbeh" fsStale "Demand" "Solar"
    (by decide) (fun _ => by decide) (by decide)

/- ### Loop lemmas for C8 and C2 -/

theorem dtLt_asymm {a b : DateTime} (h : dtLt a b) : ¬ dtLt b a :=
  fun h2 => dtLt_irrefl a (dtLt_trans h h2)

theorem dtMaxB_pos {b x : DateTime} (h : dtGtB x b = true) : dtMaxB b x = x := by
  simp [dtMaxB, h]

theorem dtMaxB_neg {b x : DateTime} (h : dtGtB x b = false) : dtMaxB b x = b := by
  simp [dtMaxB, h]

theorem gmrl_loop_parse_fail :
    ∀ (rows : List ListingRow) (link : Option String) (best : DateTime) (files : List String),
      (∃ r ∈ rows, strptime_mdy_hms (posted_str r) = none) →
      ∃ m, gmrl_loop rows link best files = .error (.dataProcessing m)
  | [], _, _, _, h => by simp at h
  | row :: rest, link, best, files, h => by
    cases hp : strptime_mdy_hms (posted_str row) with
    | none =>
      exact ⟨"Error finding the most recent link: time data does not match format",
        by simp [gmrl_loop, hp]⟩
    | some dt =>
      have hrest : ∃ r ∈ rest, strptime_mdy_hms (posted_str r) = none := by
        rcases h with ⟨r, hr, hnone⟩
        rcases List.mem_cons.mp hr with rfl | hr2
        · rw [hp] at hnone; exact absurd hnone (by simp)
        · exact ⟨r, hr2, hnone⟩
      simp only [gmrl_loop, hp]
      cases hgt : dtGtB dt best with
      | false =>
        simp only [hgt, Bool.false_eq_true, if_false]
        exact gmrl_loop_parse_fail rest link best _ hrest
      | true =>
        simp only [hgt, if_true]
        cases ha : row.anchorHref with
        | none => exact ⟨_, rfl⟩
        | some href => exact gmrl_loop_parse_fail rest (some href) dt _ hrest

theorem gmrl_loop_anchorless_fail :
    ∀ (rows : List ListingRow) (link : Option String) (best : DateTime) (files : List String),
      (∀ r ∈ rows, (strptime_mdy_hms (posted_str r)).isSome) →
      (∃ i, ∃ hi : i < rows.length,
        (rows.get ⟨i, hi⟩).anchorHref = none ∧
        dtLt (prefixMaxDt best ((rows.take i).map postedDt)) (postedDt (rows.get ⟨i, hi⟩))) →
      ∃ m, gmrl_loop rows link best files = .error (.dataProcessing m)
  | [], _, _, _, _, h => by
    obtain ⟨i, hi, _⟩ := h
    exact absurd hi (by simp)
  | row :: rest, link, best, files, hparse, h => by
    obtain ⟨dt, hp⟩ := Option.isSome_iff_exists.mp (hparse row (List.mem_cons_self row rest))
    have hpost : postedDt row = dt := by simp [postedDt, hp]
    obtain ⟨i, hi, hanch, hlt⟩ := h
    have hparse2 : ∀ r ∈ rest, (strptime_mdy_hms (posted_str r)).isSome :=
      fun r hr => hparse r (List.mem_cons_of_mem row hr)
    simp only [gmrl_loop, hp]
    cases i with
    | zero =>
      simp only [List.take_zero, List.map_nil, prefixMaxDt, List.foldl_nil, List.get] at hlt hanch
      rw [hpost] at hlt
      have hgt : dtGtB dt best = true := dtGtB_iff.mpr hlt
      simp only [hgt, if_true, hanch]
      exact ⟨_, rfl⟩
    | succ j =>
      have hj : j < rest.length := by simpa using hi
      have hget : (row :: rest).get ⟨j + 1, hi⟩ = rest.get ⟨j, hj⟩ := rfl
      rw [hget] at hanch hlt
      simp only [List.take_succ_cons, List.map_cons, prefixMaxDt, List.foldl_cons, hpost] at hlt
      cases hgt : dtGtB dt best with
      | false =>
        simp only [hgt, Bool.false_eq_true, if_false]
        refine gmrl_loop_anchorless_fail rest link best _ hparse2 ⟨j, hj, hanch, ?_⟩
        rw [prefixMaxDt, ← dtMaxB_neg hgt]
        exact hlt
      | true =>
        simp only [hgt, if_true]
        cases ha : row.anchorHref with
        | none => exact ⟨_, rfl⟩
        | some href =>
          refine gmrl_loop_anchorless_fail rest (some href) dt _ hparse2 ⟨j, hj, hanch, ?_⟩
          rw [prefixMaxDt, ← dtMaxB_pos hgt]
          exact hlt

/-- C8 (counterexample): a listing whose second row has NO anchor but
whose timestamp never exceeds the running maximum does NOT fail the
parse: `get_most_recent_link` returns the first row's link
successfully, so an absent anchor does not always fail the whole
parse. -/
theorem claim_C8_counterexample :
    get_most_recent_link
      [⟨["f1.zip", "03/02/2024", "01:00:00 PM"], some "https://mis.ercot.com/a.zip"⟩,
       ⟨["f2.zip", "03/01/2024", "01:00:00 PM"], none⟩] =
      .ok (some "https://mis.ercot.com/a.zip", ⟨2024, 3, 2, 13, 0, 0⟩,
        ["03/02/2024 01:00:00 PM", "03/01/2024 01:00:00 PM"])
    ∧ (⟨["f2.zip", "03/01/2024", "01:00:00 PM"], none⟩ : ListingRow).anchorHref = none :=
  ⟨rfl, rfl⟩

/-- C8 (amended): a row whose `posted_at` text fails to parse under the
fixed format fails the whole parse with `DataProcessingError` (no
partial manifest), and a row with an absent anchor fails the whole
parse exactly when its timestamp strictly exceeds the running maximum
of `datetime.min` and all earlier rows; an anchorless row that never
becomes the running maximum is silently tolerated. -/
theorem claim_C8_amended (rows : List ListingRow)
    (h : (∃ r ∈ rows, strptime_mdy_hms (posted_str r) = none)
      ∨ ((∀ r ∈ rows, (strptime_mdy_hms (posted_str r)).isSome)
          ∧ ∃ i, ∃ hi : i < rows.length,
              (rows.get ⟨i, hi⟩).anchorHref = none ∧
              dtLt (prefixMaxDt dtMin ((rows.take i).map postedDt))
                (postedDt (rows.get ⟨i, hi⟩)))) :
    ∃ m, get_most_recent_link rows = .error (.dataProcessing m) := by
  rcases h with h | ⟨hparse, hwin⟩
  · exact gmrl_loop_parse_fail rows none dtMin [] h
  · exact gmrl_loop_anchorless_fail rows none dtMin [] hparse hwin

/-- C8 (witness): a concrete unparseable row fails the whole parse. -/
theorem claim_C8_witness :
    ∃ m, get_most_recent_link [⟨["f.zip", "not", "a date"], some "https://x/a.zip"⟩] =
      .error (.dataProcessing m) :=
  claim_C8_amended [⟨["f.zip", "not", "a date"], some "https://x/a.zip"⟩]
    (.inl ⟨⟨["f.zip", "not", "a date"], some "https://x/a.zip"⟩, by simp, by decide⟩)

theorem gmrl_loop_no_update :
    ∀ (rows : List ListingRow) (link : Option String) (best : DateTime) (files : List String),
      (∀ r ∈ rows, (strptime_mdy_hms (posted_str r)).isSome) →
      (∀ r ∈ rows, ¬ dtLt best (postedDt r)) →
      gmrl_loop rows link best files = .ok (link, best, files ++ rows.map posted_str)
  | [], link, best, files, _, _ => by simp [gmrl_loop]
  | row :: rest, link, best, files, hparse, hnogt => by
    obtain ⟨dt, hp⟩ := Option.isSome_iff_exists.mp (hparse row (List.mem_cons_self row rest))
    have hpost : postedDt row = dt := by simp [postedDt, hp]
    have hgt : dtGtB dt best = false := by
      rw [dtGtB_false_iff, ← hpost]
      exact hnogt row (List.mem_cons_self row rest)
    simp only [gmrl_loop, hp, hgt, Bool.false_eq_true, if_false]
    rw [gmrl_loop_no_update rest link best _
      (fun r hr => hparse r (List.mem_cons_of_mem row hr))
      (fun r hr => hnogt r (List.mem_cons_of_mem row hr))]
    simp [List.append_assoc]

theorem gmrl_loop_first_max :
    ∀ (rows : List ListingRow) (link : Option String) (best : DateTime) (files : List String),
      (∀ r ∈ rows, (strptime_mdy_hms (posted_str r)).isSome ∧ r.anchorHref.isSome) →
      (∃ r ∈ rows, dtLt best (postedDt r)) →
      ∃ i, ∃ hi : i < rows.length,
        gmrl_loop rows link best files =
          .ok ((rows.get ⟨i, hi⟩).anchorHref, postedDt (rows.get ⟨i, hi⟩),
               files ++ rows.map posted_str)
        ∧ dtLt best (postedDt (rows.get ⟨i, hi⟩))
        ∧ (∀ j, ∀ hj : j < rows.length,
            ¬ dtLt (postedDt (rows.get ⟨i, hi⟩)) (postedDt (rows.get ⟨j, hj⟩)))
        ∧ (∀ j, ∀ hj : j < rows.length, j < i →
            dtLt (postedDt (rows.get ⟨j, hj⟩)) (postedDt (rows.get ⟨i, hi⟩)))
  | [], _, _, _, _, hex => by
    obtain ⟨r, hr, _⟩ := hex
    simp at hr
  | row :: rest, link, best, files, hw, hex => by
    obtain ⟨hps, has⟩ := hw row (List.mem_cons_self row rest)
    obtain ⟨dt, hp⟩ := Option.isSome_iff_exists.mp hps
    have hpost : postedDt row = dt := by simp [postedDt, hp]
    have hw2 : ∀ r ∈ rest, (strptime_mdy_hms (posted_str r)).isSome ∧ r.anchorHref.isSome :=
      fun r hr => hw r (List.mem_cons_of_mem row hr)
    simp only [gmrl_loop, hp]
    cases hgt : dtGtB dt best with
    | true =>
      have hbd : dtLt best dt := dtGtB_iff.mp hgt
      obtain ⟨href, ha⟩ := Option.isSome_iff_exists.mp has
      simp only [hgt, if_true, ha]
      by_cases hrest : ∃ r ∈ rest, dtLt dt (postedDt r)
      · obtain ⟨i1, hi1, heq1, hbest1, hmax1, hstrict1⟩ :=
          gmrl_loop_first_max rest (some href) dt (files ++ [posted_str row]) hw2 hrest
        refine ⟨i1 + 1, by simpa using Nat.succ_lt_succ hi1, ?_, ?_, ?_, ?_⟩
        · rw [heq1]
          simp [List.append_assoc]
        · exact dtLt_trans hbd hbest1
        · intro j hj
          cases j with
          | zero =>
            show ¬ dtLt _ (postedDt row)
            rw [hpost]
            exact dtLt_asymm hbest1
          | succ j1 => exact hmax1 j1 (by simpa using hj)
        · intro j hj hji
          cases j with
          | zero =>
            show dtLt (postedDt row) _
            rw [hpost]
            exact hbest1
          | succ j1 => exact hstrict1 j1 (by simpa using hj) (by omega)
      · have hrest2 : ∀ r ∈ rest, ¬ dtLt dt (postedDt r) :=
          fun r hr hcon => hrest ⟨r, hr, hcon⟩
        have hnoup := gmrl_loop_no_update rest (some href) dt (files ++ [posted_str row])
          (fun r hr => (hw2 r hr).1) hrest2
        refine ⟨0, by simp, ?_, ?_, ?_, ?_⟩
        · rw [hnoup]
          simp [List.get, ha, hpost, List.append_assoc]
        · simp only [List.get]
          rw [hpost]
          exact hbd
        · intro j hj
          cases j with
          | zero =>
            simp only [List.get]
            exact dtLt_irrefl _
          | succ j1 =>
            simp only [List.get]
            rw [hpost]
            exact hrest2 _ (List.get_mem rest _ _)
        · intro j hj hji
          exact absurd hji (Nat.not_lt_zero j)
    | false =>
      have hnlt : ¬ dtLt best dt := dtGtB_false_iff.mp hgt
      have hex2 : ∃ r ∈ rest, dtLt best (postedDt r) := by
        obtain ⟨r, hr, hbr⟩ := hex
        rcases List.mem_cons.mp hr with rfl | hr2
        · rw [hpost] at hbr
          exact absurd hbr hnlt
        · exact ⟨r, hr2, hbr⟩
      simp only [hgt, Bool.false_eq_true, if_false]
      obtain ⟨i1, hi1, heq1, hbest1, hmax1, hstrict1⟩ :=
        gmrl_loop_first_max rest link best (files ++ [posted_str row]) hw2 hex2
      have hnm : ¬ dtLt (postedDt (rest.get ⟨i1, hi1⟩)) dt :=
        fun hcon => hnlt (dtLt_trans hbest1 hcon)
      refine ⟨i1 + 1, by simpa using Nat.succ_lt_succ hi1, ?_, ?_, ?_, ?_⟩
      · rw [heq1]
        simp [List.append_assoc]
      · exact hbest1
      · intro j hj
        cases j with
        | zero =>
          show ¬ dtLt _ (postedDt row)
          rw [hpost]
          exact hnm
        | succ j1 => exact hmax1 j1 (by simpa using hj)
      · intro j hj hji
        cases j with
        | zero =>
          show dtLt (postedDt row) _
          rw [hpost]
          rcases dtLt_total dt (postedDt (rest.get ⟨i1, hi1⟩)) with h1 | h1 | h1
          · exact h1
          · rw [← h1] at hbest1
            exact absurd hbest1 hnlt
          · exact absurd h1 hnm
        | succ j1 => exact hstrict1 j1 (by simpa using hj) (by omega)

/-- C2 (counterexample): a non-empty manifest whose single row is
well-formed (timestamp `01/01/0001 12:00:00 AM` parses — to
`datetime.min` — and an anchor link is present) does NOT get its
maximal candidate's link returned: because the scan's strict `>` is
tested against the initial sentinel `datetime.min`, the row never wins
and the function returns link `None`. -/
theorem claim_C2_counterexample :
    get_most_recent_link [⟨["f.zip", "01/01/0001", "12:00:00 AM"], some "https://x/min.zip"⟩] =
      .ok (none, dtMin, ["01/01/0001 12:00:00 AM"])
    ∧ strptime_mdy_hms
        (posted_str ⟨["f.zip", "01/01/0001", "12:00:00 AM"], some "https://x/min.zip"⟩) =
      some dtMin
    ∧ (⟨["f.zip", "01/01/0001", "12:00:00 AM"], some "https://x/min.zip"⟩
        : ListingRow).anchorHref = some "https://x/min.zip" :=
  ⟨rfl, by decide, rfl⟩

/-- C2 (amended): for every non-empty list of well-formed rows whose
maximal `posted_at` is strictly later than `datetime.min` (the scan's
initial sentinel), `get_most_recent_link` returns the anchor link and
timestamp of the first row, in document order, achieving the maximum
timestamp (ties on the maximum go to the earliest row, by the strict
`>` against the running maximum), together with the full file list. -/
theorem claim_C2_first_max (rows : List ListingRow)
    (hw : ∀ r ∈ rows, (strptime_mdy_hms (posted_str r)).isSome ∧ r.anchorHref.isSome)
    (hmax : ∃ r ∈ rows, dtLt dtMin (postedDt r)) :
    ∃ i, ∃ hi : i < rows.length,
      get_most_recent_link rows =
        .ok ((rows.get ⟨i, hi⟩).anchorHref, postedDt (rows.get ⟨i, hi⟩), rows.map posted_str)
      ∧ (∀ j, ∀ hj : j < rows.length,
          ¬ dtLt (postedDt (rows.get ⟨i, hi⟩)) (postedDt (rows.get ⟨j, hj⟩)))
      ∧ (∀ j, ∀ hj : j < rows.length, j < i →
          dtLt (postedDt (rows.get ⟨j, hj⟩)) (postedDt (rows.get ⟨i, hi⟩))) := by
  obtain ⟨i, hi, heq, _, hmax2, hstrict⟩ := gmrl_loop_first_max rows none dtMin [] hw hmax
  exact ⟨i, hi, by simpa using heq, hmax2, hstrict⟩

/-- C2 (witness): on a concrete three-row manifest whose last two rows
tie for the maximum, the theorem applies; its hypotheses hold by
evaluation. -/
theorem claim_C2_witness :
    ∃ i, ∃ hi : i <
      ([⟨["f1.zip", "03/01/2024", "09:00:00 AM"], some "https://x/a.zip"⟩,
        ⟨["f2.zip", "03/01/2024", "05:00:00 PM"], some "https://x/b.zip"⟩,
        ⟨["f3.zip", "03/01/2024", "05:00:00 PM"], some "https://x/c.zip"⟩]
          : List ListingRow).length,
      get_most_recent_link
        [⟨["f1.zip", "03/01/2024", "09:00:00 AM"], some "https://x/a.zip"⟩,
         ⟨["f2.zip", "03/01/2024", "05:00:00 PM"], some "https://x/b.zip"⟩,
         ⟨["f3.zip", "03/01/2024", "05:00:00 PM"], some "https://x/c.zip"⟩] =
        .ok (([⟨["f1.zip", "03/01/2024", "09:00:00 AM"], some "https://x/a.zip"⟩,
               ⟨["f2.zip", "03/01/2024", "05:00:00 PM"], some "https://x/b.zip"⟩,
               ⟨["f3.zip", "03/01/2024", "05:00:00 PM"], some "https://x/c.zip"⟩].get
                ⟨i, hi⟩).anchorHref,
          postedDt ([⟨["f1.zip", "03/01/2024", "09:00:00 AM"], some "https://x/a.zip"⟩,
               ⟨["f2.zip", "03/01/2024", "05:00:00 PM"], some "https://x/b.zip"⟩,
               ⟨["f3.zip", "03/01/2024", "05:00:00 PM"], some "https://x/c.zip"⟩].get
                ⟨i, hi⟩),
          [⟨["f1.zip", "03/01/2024", "09:00:00 AM"], some "https://x/a.zip"⟩,
           ⟨["f2.zip", "03/01/2024", "05:00:00 PM"], some "https://x/b.zip"⟩,
           ⟨["f3.zip", "03/01/2024", "05:00:00 PM"], some "https://x/c.zip"⟩].map posted_str)
      ∧ (∀ j, ∀ hj : j < 3,
          ¬ dtLt (postedDt ([⟨["f1.zip", "03/01/2024", "09:00:00 AM"], some "https://x/a.zip"⟩,
               ⟨["f2.zip", "03/01/2024", "05:00:00 PM"], some "https://x/b.zip"⟩,
               ⟨["f3.zip", "03/01/2024", "05:00:00 PM"], some "https://x/c.zip"⟩].get ⟨i, hi⟩))
            (postedDt ([⟨["f1.zip", "03/01/2024", "09:00:00 AM"], some "https://x/a.zip"⟩,
               ⟨["f2.zip", "03/01/2024", "05:00:00 PM"], some "https://x/b.zip"⟩,
               ⟨["f3.zip", "03/01/2024", "05:00:00 PM"], some "https://x/c.zip"⟩].get ⟨j, hj⟩)))
      ∧ (∀ j, ∀ hj : j < 3, j < i →
          dtLt (postedDt ([⟨["f1.zip", "03/01/2024", "09:00:00 AM"], some "https://x/a.zip"⟩,
               ⟨["f2.zip", "03/01/2024", "05:00:00 PM"], some "https://x/b.zip"⟩,
               ⟨["f3.zip", "03/01/2024", "05:00:00 PM"], some "https://x/c.zip"⟩].get ⟨j, hj⟩))
            (postedDt ([⟨["f1.zip", "03/01/2024", "09:00:00 AM"], some "https://x/a.zip"⟩,
               ⟨["f2.zip", "03/01/2024", "05:00:00 PM"], some "https://x/b.zip"⟩,
               ⟨["f3.zip", "03/01/2024", "05:00:00 PM"], some "https://x/c.zip"⟩].get ⟨i, hi⟩))) :=
  claim_C2_first_max
    [⟨["f1.zip", "03/01/2024", "09:00:00 AM"], some "https://x/a.zip"⟩,
     ⟨["f2.zip", "03/01/2024", "05:00:00 PM"], some "https://x/b.zip"⟩,
     ⟨["f3.zip", "03/01/2024", "05:00:00 PM"], some "https://x/c.zip"⟩]
    (by decide)
    ⟨⟨["f2.zip", "03/01/2024", "05:00:00 PM"], some "https://x/b.zip"⟩, by simp, by decide⟩

/- ### Filesystem lemmas for C10 -/

theorem writeFile_dirs (fs : FS) (p c : String) : (fs.writeFile p c).dirs = fs.dirs := rfl

theorem find?_filterne_append :
    ∀ (files : List (String × String)) (p c : String),
      ((files.filter (fun f => f.1 != p)) ++ [(p, c)]).find? (fun f => f.1 == p) =
        some (p, c)
  | [], p, c => by simp [List.find?]
  | f :: fsl, p, c => by
    by_cases hf : f.1 = p
    · rw [List.filter_cons, if_neg (by simp [hf])]
      exact find?_filterne_append fsl p c
    · rw [List.filter_cons, if_pos (by simp [hf]), List.cons_append,
        List.find?_cons_of_neg _ (by simp [hf])]
      exact find?_filterne_append fsl p c

theorem readFile_writeFile_self (fs : FS) (p c : String) :
    (fs.writeFile p c).readFile p = some c := by
  unfold FS.writeFile FS.readFile
  rw [find?_filterne_append]
  rfl

theorem find?_filterne_append_ne :
    ∀ (files : List (String × String)) (p c q : String), q ≠ p →
      ((files.filter (fun f => f.1 != p)) ++ [(p, c)]).find? (fun f => f.1 == q) =
        files.find? (fun f => f.1 == q)
  | [], p, c, q, h => by
    simp only [List.filter_nil, List.nil_append]
    rw [List.find?_cons_of_neg _ (by simp [Ne.symm h])]
  | f :: fsl, p, c, q, h => by
    by_cases hf : f.1 = p
    · rw [List.filter_cons, if_neg (by simp [hf]),
        List.find?_cons_of_neg _ (by simp [hf, Ne.symm h])]
      exact find?_filterne_append_ne fsl p c q h
    · by_cases hq : f.1 = q
      · rw [List.filter_cons, if_pos (by simp [hf]), List.cons_append,
          List.find?_cons_of_pos _ (by simp [hq]), List.find?_cons_of_pos _ (by simp [hq])]
      · rw [List.filter_cons, if_pos (by simp [hf]), List.cons_append,
          List.find?_cons_of_neg _ (by simp [hq]), List.find?_cons_of_neg _ (by simp [hq])]
        exact find?_filterne_append_ne fsl p c q h

theorem readFile_writeFile_ne (fs : FS) (p c q : String) (h : q ≠ p) :
    (fs.writeFile p c).readFile q = fs.readFile q := by
  unfold FS.writeFile FS.readFile
  rw [find?_filterne_append_ne fs.files p c q h]

theorem strStarts_prefix_append (a b : String) : strStarts (a ++ b) a = true := by
  simp only [strStarts, str_data_append]
  exact List.isPrefixOf_iff_prefix.mpr (List.prefix_append _ _)

theorem pathWithin_append (uz s : String) : pathWithin uz (uz ++ "/" ++ s) = true := by
  unfold pathWithin
  rw [strStarts_prefix_append (uz ++ "/") s]
  simp

theorem extractAllGo_dirs (uz : String) :
    ∀ (ms : List (String × String)) (fs : FS), (extractAllGo uz fs ms).dirs = fs.dirs
  | [], _ => rfl
  | m :: rest, fs => by
    unfold extractAllGo
    rw [extractAllGo_dirs uz rest]
    split <;> rfl

theorem readFile_extractAllGo_outside (uz q : String) (hq : pathWithin uz q = false) :
    ∀ (ms : List (String × String)) (fs : FS),
      (extractAllGo uz fs ms).readFile q = fs.readFile q
  | [], _ => rfl
  | m :: rest, fs => by
    unfold extractAllGo
    rw [readFile_extractAllGo_outside uz q hq rest]
    split
    · rfl
    · refine readFile_writeFile_ne fs _ _ q ?_
      intro hcontra
      rw [hcontra] at hq
      rw [pathWithin_append] at hq
      exact Bool.noConfusion hq

theorem files_all_writeFile (fs : FS) (p c : String) (P : String × String → Bool)
    (hall : fs.files.all P = true) (hp : P (p, c) = true) :
    (fs.writeFile p c).files.all P = true := by
  unfold FS.writeFile
  simp only [List.all_append, List.all_eq_true, Bool.and_eq_true] at hall ⊢
  refine ⟨fun f hf => hall f (List.mem_of_mem_filter hf), ?_⟩
  intro f hf
  rw [List.mem_singleton.mp hf]
  exact hp

theorem all_weaken {α : Type} (l : List α) (P Q : α → Bool)
    (h : l.all P = true) (himp : ∀ x, P x = true → Q x = true) : l.all Q = true := by
  simp only [List.all_eq_true] at h ⊢
  exact fun x hx => himp x (h x hx)

theorem extractAllGo_files_all (uz : String) (L : List (String × String)) :
    ∀ (ms : List (String × String)) (fs : FS), (∀ m ∈ ms, m ∈ L) →
      fs.files.all (fun f => !pathWithin uz f.1
        || L.any (fun m => uz ++ "/" ++ sanitizeMemberName m.1 == f.1)) = true →
      (extractAllGo uz fs ms).files.all (fun f => !pathWithin uz f.1
        || L.any (fun m => uz ++ "/" ++ sanitizeMemberName m.1 == f.1)) = true
  | [], fs, _, hall => hall
  | m :: rest, fs, hsub, hall => by
    unfold extractAllGo
    refine extractAllGo_files_all uz L rest _
      (fun m1 hm1 => hsub m1 (List.mem_cons_of_mem m hm1)) ?_
    split
    · exact hall
    · refine files_all_writeFile fs _ _ _ hall ?_
      have hm : m ∈ L := hsub m (List.mem_cons_self m rest)
      rw [Bool.or_eq_true]
      refine .inr ?_
      simp only [List.any_eq_true]
      exact ⟨m, hm, by simp⟩

/-- C10: failure of the pipeline at the extraction or load step is not
atomic with respect to the filesystem.  When rendering, parsing,
selection and fetch all succeed but the run then fails (so the failure
is at `zipfile`/`listdir`/`read_csv`), `process_url` returns the empty
result with `None`s, yet in the final filesystem the downloaded
archive has already been written into the shared downloads directory
with the fetched bytes, the per-source workspace has already been
deleted and recreated (the directory exists and every file in its
subtree stems from this run's extraction — none of the pre-existing
files survives there). -/
theorem claim_C10_nonatomic_failure
    (env : ScrapeEnv) (fs : FS) (k v : String)
    (page : PageDoc) (t : ReportTable) (cname url : String) (posted : DateTime)
    (fl : List String) (content : String)
    (hhome : strStarts env.home "/" = true)
    (hr : env.render = .ok page)
    (ht : page.reportTable = some t)
    (hn : t.nameCell = some cname)
    (hsel : get_most_recent_link t.rows = .ok (some url, posted, fl))
    (hfetch : env.fetch url = .ok content)
    (hzip : pathWithin (unzipFolderOf env.home k)
      (joinPath (downloadsFolder env.home) (zipBasename cname posted)) = false)
    (hwf : fs.files.any (fun f => pathWithin (unzipFolderOf env.home k) f.1) = true →
      fs.existsPath (unzipFolderOf env.home k) = true)
    (hfail : ∃ e fs1, processUrlTry env fs k v = .error (e, fs1)) :
    ∃ fs1, process_url env fs k v = ((reportNameOnlyDF k, none, none, none), fs1)
      ∧ fs1.readFile (joinPath (downloadsFolder env.home) (zipBasename cname posted)) =
          some content
      ∧ fs1.dirs.contains (unzipFolderOf env.home k) = true
      ∧ fs1.files.all (fun f => !pathWithin (unzipFolderOf env.home k) f.1
          || ((env.unzip content).getD []).any
               (fun m => unzipFolderOf env.home k ++ "/" ++ sanitizeMemberName m.1 == f.1))
          = true := by
  have hall4 : ((prepare_workspace env.home fs k).writeFile
      (joinPath (downloadsFolder env.home) (zipBasename cname posted)) content).files.all
      (fun f => !pathWithin (unzipFolderOf env.home k) f.1) = true :=
    files_all_writeFile _ _ _ _ (prepare_workspace_files env.home fs k hhome hwf)
      (by rw [hzip]; rfl)
  cases hu : env.unzip content with
  | none =>
    have hTry : processUrlTry env fs k v =
        .error (.other "BadZipFile: File is not a zip file",
          (prepare_workspace env.home fs k).writeFile
            (joinPath (downloadsFolder env.home) (zipBasename cname posted)) content) := by
      simp only [processUrlTry, hr, get_rendered_html, get_csv_file_name, ht, hn,
        getReportRows, hsel, requests_get, hfetch, hu]
    refine ⟨(prepare_workspace env.home fs k).writeFile
        (joinPath (downloadsFolder env.home) (zipBasename cname posted)) content,
      by simp only [process_url, hTry], ?_, ?_, ?_⟩
    · exact readFile_writeFile_self _ _ _
    · rw [writeFile_dirs]
      exact prepare_workspace_dirs env.home fs k hhome
    · simp only [Option.getD_none, List.any_nil, Bool.or_false]
      exact hall4
  | some members =>
    have hTry0 : processUrlTry env fs k v =
        match load_stage env
          (extractAll ((prepare_workspace env.home fs k).writeFile
            (joinPath (downloadsFolder env.home) (zipBasename cname posted)) content)
            (unzipFolderOf env.home k) members) (unzipFolderOf env.home k) with
        | .error e => .error (e,
            extractAll ((prepare_workspace env.home fs k).writeFile
              (joinPath (downloadsFolder env.home) (zipBasename cname posted)) content)
              (unzipFolderOf env.home k) members)
        | .ok df0 => .ok ((df0.setCol "report_name" k,
            joinPath (downloadsFolder env.home) (zipBasename cname posted),
            unzipFolderOf env.home k, cname),
            extractAll ((prepare_workspace env.home fs k).writeFile
              (joinPath (downloadsFolder env.home) (zipBasename cname posted)) content)
              (unzipFolderOf env.home k) members) := by
      simp only [processUrlTry, hr, get_rendered_html, get_csv_file_name, ht, hn,
        getReportRows, hsel, requests_get, hfetch, hu]
    cases hload : load_stage env
        (extractAll ((prepare_workspace env.home fs k).writeFile
          (joinPath (downloadsFolder env.home) (zipBasename cname posted)) content)
          (unzipFolderOf env.home k) members) (unzipFolderOf env.home k) with
    | ok df0 =>
      obtain ⟨e, fs1, heq⟩ := hfail
      rw [hTry0, hload] at heq
      exact Except.noConfusion heq
    | error e =>
      rw [hload] at hTry0
      dsimp only at hTry0
      refine ⟨extractAll ((prepare_workspace env.home fs k).writeFile
          (joinPath (downloadsFolder env.home) (zipBasename cname posted)) content)
          (unzipFolderOf env.home k) members,
        by simp only [process_url, hTry0], ?_, ?_, ?_⟩
      · rw [extractAll, readFile_extractAllGo_outside _ _ hzip]
        exact readFile_writeFile_self _ _ _
      · rw [extractAll, extractAllGo_dirs, writeFile_dirs]
        exact prepare_workspace_dirs env.home fs k hhome
      · simp only [Option.getD_some]
        rw [extractAll]
        refine extractAllGo_files_all _ members members _ (fun m hm => hm) ?_
        refine all_weaken _ _ _ hall4 ?_
        intro f hf
        rw [Bool.or_eq_true]
        exact .inl hf

/-- C10 (witness): with a renderer serving one well-formed candidate,
a fetch that succeeds and a zip decoder that fails (`BadZipFile`), the
failure leaves the written archive and the reset workspace behind at a
concrete input. -/
theorem claim_C10_witness :
    ∃ fs1, process_url envBadZip fsEmpty "Demand" "u" =
        ((reportNameOnlyDF "Demand", none, none, none), fs1)
      ∧ fs1.readFile (joinPath (downloadsFolder envBadZip.home)
          (zipBasename "DemandData" ⟨2024, 3, 1, 14, 5, 30⟩)) = some "PK-bytes-not-a-zip"
      ∧ fs1.dirs.contains (unzipFolderOf envBadZip.home "Demand") = true
      ∧ fs1.files.all (fun f => !pathWithin (unzipFolderOf envBadZip.home "Demand") f.1
          || ((envBadZip.unzip "PK-bytes-not-a-zip").getD []).any
               (fun m => unzipFolderOf envBadZip.home "Demand" ++ "/"
                  ++ sanitizeMemberName m.1 == f.1)) = true :=
  claim_C10_nonatomic_failure envBadZip fsEmpty "Demand" "u"
    ⟨some ⟨some "DemandData",
      [⟨["cdr.00013101.0000000000000000.DemandData.zip", "03/01/2024", "02:05:30 PM"],
        some "https://mis.ercot.com/misdownload/doclookup?doclookupId=1"⟩]⟩⟩
    ⟨some "DemandData",
      [⟨["cdr.00013101.0000000000000000.DemandData.zip", "03/01/2024", "02:05:30 PM"],
        some "https://mis.ercot.com/misdownload/doclookup?doclookupId=1"⟩]⟩
    "DemandData" "https://mis.ercot.com/misdownload/doclookup?doclookupId=1"
    ⟨2024, 3, 1, 14, 5, 30⟩ ["03/01/2024 02:05:30 PM"] "PK-bytes-not-a-zip"
    (by decide) rfl rfl rfl rfl rfl (by decide)
    (fun h => absurd h (by decide))
    ⟨.other "BadZipFile: File is not a zip file", _, rfl⟩
